import Mathlib

/-!
Shallow embedding of `git_diff_files.py`, a single-file CLI that compares two
git references and reports the changed files.

External effects are modelled by oracles:
* `Git.run` models `subprocess.run` on a git command line: `.ok out` is a run
  with exit status 0 and captured standard output `out`; `.error err` is a run
  with non-zero exit status raising `subprocess.CalledProcessError`, carrying
  the captured standard-error text `err` (the script always pipes/captures
  both streams).
* `Fs` models the two filesystem operations of `main`
  (`Path.parent.mkdir(parents=True, exist_ok=True)` and `Path.write_text`,
  the latter overwriting any existing content); `.error e` is a raised
  `OSError` with message `e`.
* `click.echo(...)` / `click.echo(..., err=True)` become `Event.out` /
  `Event.err` entries of an ordered event trace, which also records each
  subprocess invocation (`Event.call`) and the file write (`Event.writeFile`).
-/

namespace GitDiffFiles

/-- ASCII whitespace stripped by Python `str.strip()` (Python also strips
further Unicode whitespace; the script only meets ASCII git output). -/
def isPySpace (c : Char) : Bool :=
  (c = ' ') || (c = '\t') || (c = '\n') || (c = '\r') || (c = '\x0b') || (c = '\x0c')

/-- Python `str.strip()` on a list of characters: drop whitespace from both
ends. -/
def pyStripList (cs : List Char) : List Char :=
  ((cs.dropWhile isPySpace).reverse.dropWhile isPySpace).reverse

/-- Python `str.strip()`. -/
def pyStrip (s : String) : String :=
  String.mk (pyStripList s.data)

/-- Helper for `pySplitlines`: split a character list at newline characters,
`acc` holding the current (reversed) partial line. A trailing partial line is
emitted only when non-empty, matching Python `str.splitlines()`. -/
def linesAux (cs : List Char) (acc : List Char) : List (List Char) :=
  match cs with
  | [] => if acc.isEmpty then [] else [acc.reverse]
  | c :: rest => if c = '\n' then acc.reverse :: linesAux rest [] else linesAux rest (c :: acc)

/-- Python `str.splitlines()` restricted to the `\n` line terminator (the
script consumes git output, which uses `\n`): a trailing newline does not
produce a trailing empty line, and `"".splitlines() = []`. -/
def pySplitlines (s : String) : List String :=
  (linesAux s.data []).map String.mk

/-- The git backend oracle: one `subprocess.run` behaviour per command line. -/
structure Git where
  run : List String → Except String String

/-- The command run by `is_git_repo`. -/
def gitDirCmd : List String := ["git", "rev-parse", "--git-dir"]

/-- The command run by `validate_git_ref`. -/
def verifyCmd (ref : String) : List String := ["git", "rev-parse", "--verify", ref]

/-- Does an `Except` carry a success? Models "the subprocess exited 0". -/
def exceptOk {ε α : Type} : Except ε α → Bool
  | .ok _ => true
  | .error _ => false

/-- `is_git_repo`: run `git rev-parse --git-dir`; `check=True` turns a
non-zero exit into `CalledProcessError`, which is caught and mapped to
`False`. -/
def is_git_repo (g : Git) : Bool :=
  exceptOk (g.run gitDirCmd)

/-- `validate_git_ref`: run `git rev-parse --verify ref`; a
`CalledProcessError` is caught and mapped to `False`. -/
def validate_git_ref (g : Git) (ref : String) : Bool :=
  exceptOk (g.run (verifyCmd ref))

/-- Python truthiness of the `Optional[str]` pattern: `if file_pattern:` is
taken iff the pattern is present and non-empty. -/
def patTruthy : Option String → Bool
  | none => false
  | some s => !(s == "")

/-- The command list built by `get_changed_files`:
`cmd = ["git", "diff", "--name-only", base_ref, head_ref]`, then
`cmd.append("--"); cmd.append(file_pattern)` when `if file_pattern:` holds. -/
def diffCmd (base_ref head_ref : String) (file_pattern : Option String) : List String :=
  let cmd := ["git", "diff", "--name-only", base_ref, head_ref]
  if patTruthy file_pattern then cmd ++ ["--", file_pattern.getD ""] else cmd

/-- The list comprehension
`[f.strip() for f in result.stdout.splitlines() if f.strip()]`:
split standard output into lines, strip each, keep the non-empty ones. -/
def parseDiffOutput (out : String) : List String :=
  ((pySplitlines out).map pyStrip).filter fun f => decide (f ≠ "")

/-- `get_changed_files`: run the diff command (`check=True`, so a non-zero
exit raises `CalledProcessError` carrying the captured stderr, modelled by
`Except.error`), and on success parse its standard output. -/
def get_changed_files (g : Git) (base_ref head_ref : String)
    (file_pattern : Option String) : Except String (List String) :=
  match g.run (diffCmd base_ref head_ref file_pattern) with
  | .error e => .error e
  | .ok out => .ok (parseDiffOutput out)

/-- Filesystem oracle for the `--output` handling of `main`:
`mkdirParents o` models `Path(o).parent.mkdir(parents=True, exist_ok=True)`
and `writeText o content` models `Path(o).write_text(content)`, which
replaces (overwrites) any existing content of the file. `.error e` models a
raised `OSError` with message text `e`. -/
structure Fs where
  mkdirParents : String → Except String Unit
  writeText : String → String → Except String Unit

/-- One observable event of a program run, in order of occurrence. -/
inductive Event where
  | call (cmd : List String)
  | out (line : String)
  | err (line : String)
  | writeFile (path : String) (content : String)
  deriving DecidableEq, Repr

/-- How the process terminates: `exited c` is `sys.exit(c)` (or falling off
the end of the click command, which yields exit status 0), `aborted` is
`raise click.Abort()`. -/
inductive ProgExit where
  | exited (code : Nat)
  | aborted
  deriving DecidableEq, Repr

/-- The process exit status each termination produces. `click.Abort` raised
inside a command run in standalone mode is handled by click itself
(`except Abort:` in `BaseCommand.main`), which prints `Aborted!` to stderr
and calls `sys.exit(1)`; so the abort path yields exit status 1. Modelled
from the click library (external dependency of the script). -/
def finalExitCode : ProgExit → Nat
  | .exited c => c
  | .aborted => 1

/-- `click.echo(f"Error: Invalid git reference '{ref}'", err=True)`. -/
def invalidRefMsg (ref : String) : String :=
  "Error: Invalid git reference \x27" ++ ref ++ "\x27"

/-- The remediation hint `click.echo("Note: Make sure you're in the correct
repository and the reference exists")` — note: no `err=True`. -/
def noteMsg : String :=
  "Note: Make sure you\x27re in the correct repository and the reference exists"

/-- `click.echo(f"Error: Git command failed: {e.stderr}", err=True)`. -/
def cmdFailMsg (stderr : String) : String :=
  "Error: Git command failed: " ++ stderr

/-- `click.echo(f"Error: {str(e)}", err=True)` in the generic handler. -/
def genericErrMsg (e : String) : String :=
  "Error: " ++ e

/-- `click.echo(f"Found {len(changed_files)} changed files:")`. -/
def countMsg (n : Nat) : String :=
  "Found " ++ toString n ++ " changed files:"

/-- `click.echo(f"  - {file}")`. -/
def itemLine (file : String) : String :=
  "  - " ++ file

/-- `click.echo(f"\nWritten output to: {output_path}")`. -/
def writtenMsg (path : String) : String :=
  "\n" ++ "Written output to: " ++ path

/-- The content written by `output_path.write_text("\n".join(changed_files) + "\n")`. -/
def outputContent (changed_files : List String) : String :=
  String.intercalate "\n" changed_files ++ "\n"

/-- The subprocess calls a run that reaches the diff makes, in order. -/
def preCalls (base_ref head_ref : String) (pattern : Option String) : List Event :=
  [Event.call gitDirCmd, Event.call (verifyCmd base_ref),
   Event.call (verifyCmd head_ref), Event.call (diffCmd base_ref head_ref pattern)]

/-- The stdout lines enumerating a non-empty changed-file list. -/
def listing (changed_files : List String) : List Event :=
  Event.out (countMsg changed_files.length)
    :: changed_files.map fun f => Event.out (itemLine f)

/-- The `main` click command: validate the environment, validate both
references (base first), collect the changed files inside a
`try`/`except subprocess.CalledProcessError`/`except Exception` block,
print the results, and optionally write them to `--output`. Returns the
ordered event trace and the termination. -/
def main (g : Git) (fs : Fs) (base_ref head_ref : String)
    (pattern output : Option String) : List Event × ProgExit :=
  if is_git_repo g = false then
    ([Event.call gitDirCmd, Event.err "Error: Not a git repository"], .exited 1)
  else if validate_git_ref g base_ref = false then
    ([Event.call gitDirCmd, Event.call (verifyCmd base_ref),
      Event.err (invalidRefMsg base_ref), Event.out noteMsg], .exited 1)
  else if validate_git_ref g head_ref = false then
    ([Event.call gitDirCmd, Event.call (verifyCmd base_ref),
      Event.call (verifyCmd head_ref),
      Event.err (invalidRefMsg head_ref), Event.out noteMsg], .exited 1)
  else
    match get_changed_files g base_ref head_ref pattern with
    | .error e =>
        (preCalls base_ref head_ref pattern ++ [Event.err (cmdFailMsg e)], .aborted)
    | .ok changed_files =>
        if changed_files.isEmpty then
          (preCalls base_ref head_ref pattern
            ++ [Event.out "No changes found between the specified references."], .exited 0)
        else
          match output with
          | none => (preCalls base_ref head_ref pattern ++ listing changed_files, .exited 0)
          | some o =>
              match fs.mkdirParents o with
              | .error e =>
                  (preCalls base_ref head_ref pattern ++ listing changed_files
                    ++ [Event.err (genericErrMsg e)], .aborted)
              | .ok _ =>
                  match fs.writeText o (outputContent changed_files) with
                  | .error e =>
                      (preCalls base_ref head_ref pattern ++ listing changed_files
                        ++ [Event.err (genericErrMsg e)], .aborted)
                  | .ok _ =>
                      (preCalls base_ref head_ref pattern ++ listing changed_files
                        ++ [Event.writeFile o (outputContent changed_files),
                            Event.out (writtenMsg o)], .exited 0)
/-! ## Basic string and list lemmas -/

theorem strData_append (a b : String) : (a ++ b).data = a.data ++ b.data := by
  cases a; cases b; rfl

/-- Does a character list start with the six characters `Error:`? -/
def startsErrList : List Char → Bool
  | 'E' :: 'r' :: 'r' :: 'o' :: 'r' :: ':' :: _ => true
  | _ => false

/-- Does a string start with `Error:`, the prefix the script puts on every
message it sends to the error stream? -/
def startsWithError (s : String) : Bool :=
  startsErrList s.data

theorem dropWhile_length_le (p : α → Bool) (l : List α) :
    (l.dropWhile p).length ≤ l.length := by
  induction l with
  | nil => simp
  | cons a l ih =>
    rw [List.dropWhile_cons]
    split
    · exact Nat.le_succ_of_le ih
    · simp

theorem dropWhile_idem (p : α → Bool) (l : List α) :
    (l.dropWhile p).dropWhile p = l.dropWhile p := by
  induction l with
  | nil => simp
  | cons a l ih =>
    rw [List.dropWhile_cons]
    split
    · exact ih
    · rw [List.dropWhile_cons]
      simp_all

theorem mem_of_mem_dropWhile (p : α → Bool) (l : List α) (x : α)
    (hx : x ∈ l.dropWhile p) : x ∈ l := by
  have h := List.takeWhile_append_dropWhile p l
  rw [← h]
  exact List.mem_append_right _ hx

/-- Stripping trailing characters preserves "drops nothing from the front". -/
theorem dropWhile_eq_self_of_stripRight (p : α → Bool) (l : List α)
    (h : l.dropWhile p = l) :
    ((l.reverse.dropWhile p).reverse).dropWhile p = (l.reverse.dropWhile p).reverse := by
  cases hrev : (l.reverse.dropWhile p).reverse with
  | nil => rfl
  | cons a r =>
    have hl : l = a :: (r ++ (l.reverse.takeWhile p).reverse) := by
      conv_lhs => rw [← l.reverse_reverse, ← List.takeWhile_append_dropWhile p l.reverse]
      rw [List.reverse_append, hrev]
      simp
    have hpa : p a = false := by
      by_contra hpa
      have hpa' : p a = true := by simpa using hpa
      rw [hl, List.dropWhile_cons, hpa', if_pos rfl] at h
      have hlen1 : (List.dropWhile p (r ++ (l.reverse.takeWhile p).reverse)).length
          = (r ++ (l.reverse.takeWhile p).reverse).length + 1 := by
        rw [h, List.length_cons]
      have hlen2 := dropWhile_length_le p (r ++ (l.reverse.takeWhile p).reverse)
      omega
    rw [List.dropWhile_cons, hpa]
    simp

theorem pyStripList_idem (cs : List Char) :
    pyStripList (pyStripList cs) = pyStripList cs := by
  unfold pyStripList
  set l1 := cs.dropWhile isPySpace with hl1
  have hnoLead : l1.dropWhile isPySpace = l1 := dropWhile_idem isPySpace cs
  set r := (l1.reverse.dropWhile isPySpace).reverse with hr
  have h1 : r.dropWhile isPySpace = r :=
    dropWhile_eq_self_of_stripRight isPySpace l1 hnoLead
  rw [h1]
  have h2 : r.reverse.dropWhile isPySpace = r.reverse := by
    rw [hr, List.reverse_reverse]
    exact dropWhile_idem isPySpace l1.reverse
  rw [h2, List.reverse_reverse]

theorem pyStrip_idem (s : String) : pyStrip (pyStrip s) = pyStrip s := by
  unfold pyStrip
  rw [pyStripList_idem]

theorem mem_of_mem_pyStripList (cs : List Char) (c : Char)
    (hc : c ∈ pyStripList cs) : c ∈ cs := by
  unfold pyStripList at hc
  rw [List.mem_reverse] at hc
  have hc2 := mem_of_mem_dropWhile _ _ _ hc
  rw [List.mem_reverse] at hc2
  exact mem_of_mem_dropWhile _ _ _ hc2
/-! ## Lines, joining, and the round trip -/

theorem linesAux_no_newline (cs : List Char) :
    ∀ acc, (∀ c ∈ acc, c ≠ '\n') →
      ∀ l ∈ linesAux cs acc, ∀ c ∈ l, c ≠ '\n' := by
  induction cs with
  | nil =>
    intro acc hacc l hl c hc
    unfold linesAux at hl
    split at hl
    · simp at hl
    · simp at hl
      subst hl
      exact hacc c (List.mem_reverse.mp hc)
  | cons a rest ih =>
    intro acc hacc l hl c hc
    unfold linesAux at hl
    split at hl
    · rcases List.mem_cons.mp hl with h1 | h1
      · subst h1
        exact hacc c (List.mem_reverse.mp hc)
      · exact ih [] (by simp) l h1 c hc
    · rename_i hne
      refine ih (a :: acc) ?_ l hl c hc
      intro d hd
      rcases List.mem_cons.mp hd with h1 | h1
      · subst h1; exact hne
      · exact hacc d h1

/-- Splitting a line followed by a newline and the rest flushes the line. -/
theorem linesAux_flush (piece : List Char) (hnl : ∀ c ∈ piece, c ≠ '\n') :
    ∀ acc rest, linesAux (piece ++ '\n' :: rest) acc
      = (acc.reverse ++ piece) :: linesAux rest [] := by
  induction piece with
  | nil =>
    intro acc rest
    simp [linesAux]
  | cons c piece ih =>
    intro acc rest
    have hc : c ≠ '\n' := hnl c (by simp)
    have hrest : ∀ d ∈ piece, d ≠ '\n' := fun d hd => hnl d (by simp [hd])
    simp only [List.cons_append, linesAux, if_neg hc, List.append_eq]
    rw [ih hrest (c :: acc) rest]
    simp

/-- The character list `p1 ++ "\n" ++ p2 ++ "\n" ++ ... ++ pn ++ "\n"`. -/
def joinNlChars : List (List Char) → List Char
  | [] => []
  | l :: ls => l ++ '\n' :: joinNlChars ls

theorem linesAux_joinNlChars (pieces : List (List Char))
    (h : ∀ p ∈ pieces, ∀ c ∈ p, c ≠ '\n') :
    linesAux (joinNlChars pieces) [] = pieces := by
  induction pieces with
  | nil => rfl
  | cons p ps ih =>
    have hp : ∀ c ∈ p, c ≠ '\n' := h p (by simp)
    have hps : ∀ q ∈ ps, ∀ c ∈ q, c ≠ '\n' := fun q hq => h q (by simp [hq])
    show linesAux (p ++ '\n' :: joinNlChars ps) [] = p :: ps
    rw [linesAux_flush p hp [] (joinNlChars ps)]
    simp [ih hps]

theorem intercalate_go_data (sep : String) (as : List String) :
    ∀ acc : String, (String.intercalate.go acc sep as).data
      = acc.data ++ (as.map fun a => sep.data ++ a.data).flatten := by
  induction as with
  | nil => intro acc; simp [String.intercalate.go]
  | cons a as ih =>
    intro acc
    show (String.intercalate.go (acc ++ sep ++ a) sep as).data = _
    rw [ih (acc ++ sep ++ a)]
    simp [strData_append]

theorem midJoin_newline (ls : List (List Char)) :
    (ls.map fun l => '\n' :: l).flatten ++ ['\n'] = '\n' :: joinNlChars ls := by
  induction ls with
  | nil => rfl
  | cons l ls ih =>
    show ('\n' :: l) ++ (ls.map fun l => '\n' :: l).flatten ++ ['\n']
      = '\n' :: (l ++ '\n' :: joinNlChars ls)
    rw [List.cons_append, List.cons_append, List.append_assoc, ih]

theorem outputContent_data (changed_files : List String) (hne : changed_files ≠ []) :
    (outputContent changed_files).data = joinNlChars (changed_files.map String.data) := by
  cases changed_files with
  | nil => exact absurd rfl hne
  | cons f fs =>
    show (String.intercalate "\n" (f :: fs) ++ "\n").data = _
    rw [strData_append]
    show (String.intercalate.go f "\n" fs).data ++ ['\n'] = _
    rw [intercalate_go_data]
    show f.data ++ (fs.map fun a => '\n' :: a.data).flatten ++ ['\n']
      = f.data ++ '\n' :: joinNlChars (fs.map String.data)
    have hmap : (fs.map fun a => '\n' :: a.data)
        = (fs.map String.data).map fun l => '\n' :: l := by
      rw [List.map_map]
      rfl
    rw [hmap, List.append_assoc, midJoin_newline]
theorem mk_data (s : String) : String.mk s.data = s := by
  cases s; rfl

/-- Every entry of the parsed diff output is non-empty, is its own strip,
and contains no newline character. -/
theorem mem_parseDiffOutput (out : String) (f : String)
    (hf : f ∈ parseDiffOutput out) :
    f ≠ "" ∧ pyStrip f = f ∧ ∀ c ∈ f.data, c ≠ '\n' := by
  unfold parseDiffOutput at hf
  rw [List.mem_filter] at hf
  obtain ⟨hmem, hcond⟩ := hf
  have hne : f ≠ "" := of_decide_eq_true hcond
  rw [List.mem_map] at hmem
  obtain ⟨l, hl, hstrip⟩ := hmem
  unfold pySplitlines at hl
  rw [List.mem_map] at hl
  obtain ⟨piece, hpiece, hlmk⟩ := hl
  have hpieceNl : ∀ c ∈ piece, c ≠ '\n' :=
    linesAux_no_newline out.data [] (by simp) piece hpiece
  refine ⟨hne, ?_, ?_⟩
  · rw [← hstrip, pyStrip_idem]
  · intro c hc
    have hfd : f.data = pyStripList l.data := by
      rw [← hstrip]; rfl
    rw [hfd] at hc
    have hcl : c ∈ l.data := mem_of_mem_pyStripList l.data c hc
    rw [← hlmk] at hcl
    exact hpieceNl c hcl

/-- Round trip: splitting the written output file content back into lines
recovers exactly the changed-file list, provided the entries contain no
newline (which the entries of a parsed diff output never do). -/
theorem pySplitlines_outputContent (files : List String) (hne : files ≠ [])
    (hnl : ∀ f ∈ files, ∀ c ∈ f.data, c ≠ '\n') :
    pySplitlines (outputContent files) = files := by
  unfold pySplitlines
  rw [outputContent_data files hne, linesAux_joinNlChars]
  · rw [List.map_map]
    have hid : ∀ s : String, (String.mk ∘ String.data) s = s := fun s => mk_data s
    simp only [List.map_congr_left fun s _ => hid s]
    exact List.map_id files
  · intro p hp c hc
    rw [List.mem_map] at hp
    obtain ⟨f, hf, rfl⟩ := hp
    exact hnl f hf c hc
/-! ## Which messages carry the `Error:` prefix -/

theorem swe_notRepo : startsWithError "Error: Not a git repository" = true := rfl

theorem swe_invalidRef (r : String) : startsWithError (invalidRefMsg r) = true := by
  unfold startsWithError invalidRefMsg
  rw [strData_append, strData_append]
  rfl

theorem swe_cmdFail (e : String) : startsWithError (cmdFailMsg e) = true := by
  unfold startsWithError cmdFailMsg
  rw [strData_append]
  rfl

theorem swe_generic (e : String) : startsWithError (genericErrMsg e) = true := by
  unfold startsWithError genericErrMsg
  rw [strData_append]
  rfl

theorem swe_note : startsWithError noteMsg = false := rfl

theorem swe_noChanges :
    startsWithError "No changes found between the specified references." = false := rfl

theorem swe_count (n : Nat) : startsWithError (countMsg n) = false := by
  unfold startsWithError countMsg
  rw [strData_append, strData_append]
  rfl

theorem swe_item (f : String) : startsWithError (itemLine f) = false := by
  unfold startsWithError itemLine
  rw [strData_append]
  rfl

theorem swe_written (o : String) : startsWithError (writtenMsg o) = false := by
  unfold startsWithError writtenMsg
  rw [strData_append, strData_append]
  rfl
/-! ## Concrete oracles used as witnesses -/

/-- A backend in a valid repository where every git command succeeds and the
diff `v1..v2` (no pattern) reports `a.py` and `b.txt`. -/
def gHappy : Git :=
  ⟨fun cmd => if cmd = diffCmd "v1" "v2" none then .ok "a.py\nb.txt\n" else .ok ""⟩

/-- A backend in a valid repository where every command succeeds and every
diff output is empty. -/
def gQuiet : Git := ⟨fun _ => .ok ""⟩

/-- A backend in a valid repository with valid refs whose diff command
crashes with captured stderr `fatal: bad revision`. -/
def gDiffFail : Git :=
  ⟨fun cmd => if cmd = diffCmd "v1" "v2" none then .error "fatal: bad revision" else .ok ""⟩

/-- A backend in a valid repository where no reference resolves. -/
def gNoRefs : Git :=
  ⟨fun cmd => if cmd = gitDirCmd then .ok "" else .error "fatal: needed a single revision"⟩

/-- A backend in a valid repository whose diff output has blank and padded
lines. -/
def gMessy : Git :=
  ⟨fun cmd => if cmd = diffCmd "v1" "v2" none then .ok "  a.py \n\n\t\nb.txt" else .ok ""⟩

/-- A filesystem where directory creation and file writes succeed. -/
def fsOk : Fs := ⟨fun _ => .ok (), fun _ _ => .ok ()⟩

/-- A filesystem where directory creation fails with a permission error. -/
def fsBadDir : Fs := ⟨fun _ => .error "Permission denied", fun _ _ => .ok ()⟩

/-! ## The claims -/

/-- C4: for every valid reference pair whose comparison yields zero changed
files, the program prints exactly
`No changes found between the specified references.` and exits with
status 0. -/
theorem C4_no_changes (g : Git) (fs : Fs) (base_ref head_ref : String)
    (pattern output : Option String) (out : String)
    (hrepo : is_git_repo g = true)
    (hb : validate_git_ref g base_ref = true)
    (hh : validate_git_ref g head_ref = true)
    (hrun : g.run (diffCmd base_ref head_ref pattern) = .ok out)
    (hempty : parseDiffOutput out = []) :
    main g fs base_ref head_ref pattern output
      = (preCalls base_ref head_ref pattern
          ++ [Event.out "No changes found between the specified references."],
         .exited 0) := by
  simp [main, hrepo, hb, hh, get_changed_files, hrun, hempty]

/-- C4 witness: in a repository with valid refs and an empty diff, the run
prints the no-changes line and exits 0. -/
theorem C4_no_changes_witness :
    main gQuiet fsOk "v1" "v2" none none
      = (preCalls "v1" "v2" none
          ++ [Event.out "No changes found between the specified references."],
         .exited 0) :=
  C4_no_changes gQuiet fsOk "v1" "v2" none none "" rfl rfl rfl rfl rfl
/-- C5: for every valid reference pair whose comparison yields a non-empty
changed-file list, the printed count equals the number of listed paths, and
every listed path is printed prefixed with the indent marker `  - `, in the
order returned by the backend. -/
theorem C5_count_and_listing (g : Git) (fs : Fs) (base_ref head_ref : String)
    (pattern output : Option String) (out : String) (files : List String)
    (hrepo : is_git_repo g = true)
    (hb : validate_git_ref g base_ref = true)
    (hh : validate_git_ref g head_ref = true)
    (hrun : g.run (diffCmd base_ref head_ref pattern) = .ok out)
    (hfiles : parseDiffOutput out = files)
    (hne : files ≠ []) :
    ∃ rest, (main g fs base_ref head_ref pattern output).1
        = preCalls base_ref head_ref pattern
          ++ (Event.out (countMsg files.length)
                :: files.map fun f => Event.out (itemLine f))
          ++ rest := by
  have hie : files.isEmpty = false := by
    cases files with
    | nil => exact absurd rfl hne
    | cons a l => rfl
  cases output with
  | none =>
    refine ⟨[], ?_⟩
    simp [main, hrepo, hb, hh, get_changed_files, hrun, hfiles, hie, listing]
  | some o =>
    cases hmk : fs.mkdirParents o with
    | error e =>
      refine ⟨[Event.err (genericErrMsg e)], ?_⟩
      simp [main, hrepo, hb, hh, get_changed_files, hrun, hfiles, hie, hmk, listing]
    | ok u =>
      cases hw : fs.writeText o (outputContent files) with
      | error e =>
        refine ⟨[Event.err (genericErrMsg e)], ?_⟩
        simp [main, hrepo, hb, hh, get_changed_files, hrun, hfiles, hie, hmk, hw, listing]
      | ok v =>
        refine ⟨[Event.writeFile o (outputContent files), Event.out (writtenMsg o)], ?_⟩
        simp [main, hrepo, hb, hh, get_changed_files, hrun, hfiles, hie, hmk, hw, listing]

/-- C5 witness: with a two-file diff the run prints `Found 2 changed files:`
followed by the two indented paths in backend order. -/
theorem C5_count_and_listing_witness :
    ∃ rest, (main gHappy fsOk "v1" "v2" none none).1
        = preCalls "v1" "v2" none
          ++ (Event.out (countMsg 2)
                :: [Event.out (itemLine "a.py"), Event.out (itemLine "b.txt")])
          ++ rest := by
  have h := C5_count_and_listing gHappy fsOk "v1" "v2" none none
    "a.py\nb.txt\n" ["a.py", "b.txt"] rfl rfl rfl rfl (by decide) (by decide)
  simpa using h

/-- C2: if the underlying comparison process exits with non-zero status then
`get_changed_files` fails with the captured standard-error text, and `main`
prints an `Error:`-prefixed message containing that text to the error stream
and terminates via the abort path. -/
theorem C2_command_error (g : Git) (fs : Fs) (base_ref head_ref : String)
    (pattern output : Option String) (etext : String)
    (hrepo : is_git_repo g = true)
    (hb : validate_git_ref g base_ref = true)
    (hh : validate_git_ref g head_ref = true)
    (hrun : g.run (diffCmd base_ref head_ref pattern) = .error etext) :
    get_changed_files g base_ref head_ref pattern = .error etext
    ∧ main g fs base_ref head_ref pattern output
        = (preCalls base_ref head_ref pattern
            ++ [Event.err (cmdFailMsg etext)], .aborted)
    ∧ cmdFailMsg etext = "Error: Git command failed: " ++ etext := by
  refine ⟨?_, ?_, rfl⟩
  · simp [get_changed_files, hrun]
  · simp [main, hrepo, hb, hh, get_changed_files, hrun]

/-- C2 witness: a failing diff surfaces the captured stderr through the
abort path. -/
theorem C2_command_error_witness :
    get_changed_files gDiffFail "v1" "v2" none = .error "fatal: bad revision"
    ∧ main gDiffFail fsOk "v1" "v2" none none
        = (preCalls "v1" "v2" none
            ++ [Event.err (cmdFailMsg "fatal: bad revision")], .aborted)
    ∧ cmdFailMsg "fatal: bad revision"
        = "Error: Git command failed: " ++ "fatal: bad revision" :=
  C2_command_error gDiffFail fsOk "v1" "v2" none none "fatal: bad revision"
    rfl rfl rfl rfl

/-- C6: the base reference is validated before the head reference and the
first failure short-circuits: on an invalid base the run reports the base
failure (message naming the base reference), prints the hint, exits with
status 1, and never runs the verify command for the head reference. -/
theorem C6_base_checked_first (g : Git) (fs : Fs) (base_ref head_ref : String)
    (pattern output : Option String)
    (hrepo : is_git_repo g = true)
    (hb : validate_git_ref g base_ref = false) :
    main g fs base_ref head_ref pattern output
      = ([Event.call gitDirCmd, Event.call (verifyCmd base_ref),
          Event.err (invalidRefMsg base_ref), Event.out noteMsg], .exited 1)
    ∧ (head_ref ≠ base_ref →
        Event.call (verifyCmd head_ref) ∉ (main g fs base_ref head_ref pattern output).1) := by
  have hmain : main g fs base_ref head_ref pattern output
      = ([Event.call gitDirCmd, Event.call (verifyCmd base_ref),
          Event.err (invalidRefMsg base_ref), Event.out noteMsg], .exited 1) := by
    simp [main, hrepo, hb]
  refine ⟨hmain, fun hne hmem => ?_⟩
  rw [hmain] at hmem
  simp [verifyCmd, gitDirCmd] at hmem
  exact hne hmem

/-- C6 witness: with both references invalid, the base failure is the one
reported, with exit status 1, and the head reference is never verified. -/
theorem C6_base_checked_first_witness :
    main gNoRefs fsOk "badbase" "badhead" none none
      = ([Event.call gitDirCmd, Event.call (verifyCmd "badbase"),
          Event.err (invalidRefMsg "badbase"), Event.out noteMsg], .exited 1)
    ∧ Event.call (verifyCmd "badhead") ∉ (main gNoRefs fsOk "badbase" "badhead" none none).1 := by
  have h := C6_base_checked_first gNoRefs fsOk "badbase" "badhead" none none rfl rfl
  exact ⟨h.1, h.2 (by decide)⟩

/-- C8: a successful collection returns exactly the split/strip/discard
parse of the backend's standard output, and hence every entry of the
returned changed-file list is a non-empty string equal to its own strip. -/
theorem C8_entries_trimmed (g : Git) (base_ref head_ref : String)
    (file_pattern : Option String) (files : List String)
    (h : get_changed_files g base_ref head_ref file_pattern = .ok files) :
    (∃ out, g.run (diffCmd base_ref head_ref file_pattern) = .ok out
        ∧ files = parseDiffOutput out)
    ∧ ∀ f ∈ files, f ≠ "" ∧ pyStrip f = f := by
  unfold get_changed_files at h
  cases hr : g.run (diffCmd base_ref head_ref file_pattern) with
  | error e => rw [hr] at h; exact absurd h (by simp)
  | ok out =>
    rw [hr] at h
    have hfiles : files = parseDiffOutput out := by
      simpa using h.symm
    refine ⟨⟨out, rfl, hfiles⟩, fun f hf => ?_⟩
    rw [hfiles] at hf
    obtain ⟨h1, h2, _⟩ := mem_parseDiffOutput out f hf
    exact ⟨h1, h2⟩

/-- C8 witness: a messy diff output with padding and blank lines yields
non-empty, trimmed entries. -/
theorem C8_entries_trimmed_witness :
    (∃ out, gMessy.run (diffCmd "v1" "v2" none) = .ok out
        ∧ ["a.py", "b.txt"] = parseDiffOutput out)
    ∧ ∀ f ∈ ["a.py", "b.txt"], f ≠ "" ∧ pyStrip f = f :=
  C8_entries_trimmed gMessy "v1" "v2" none ["a.py", "b.txt"] rfl

/-- C9: a non-empty pattern is appended to the single diff command after the
pathspec separator `--`, and the collection result is the parse of exactly
that command's output — no post-hoc filtering over the returned list. -/
theorem C9_pattern_scopes_command (base_ref head_ref p : String) (hp : p ≠ "") :
    diffCmd base_ref head_ref (some p)
      = ["git", "diff", "--name-only", base_ref, head_ref, "--", p]
    ∧ ∀ (g : Git) (out : String),
        g.run (diffCmd base_ref head_ref (some p)) = .ok out →
        get_changed_files g base_ref head_ref (some p) = .ok (parseDiffOutput out) := by
  constructor
  · have hbe : (p == "") = false := beq_eq_false_iff_ne.mpr hp
    simp [diffCmd, patTruthy, hbe]
  · intro g out hrun
    simp [get_changed_files, hrun]

/-- C9 witness: with pattern `*.py` the invoked command is the name-only
diff followed by `--` and the pattern. -/
theorem C9_pattern_scopes_command_witness :
    diffCmd "v1" "v2" (some "*.py")
      = ["git", "diff", "--name-only", "v1", "v2", "--", "*.py"]
    ∧ get_changed_files gHappy "v1" "v2" (some "*.py")
        = .ok (parseDiffOutput "") := by
  have h := C9_pattern_scopes_command "v1" "v2" "*.py" (by decide)
  exact ⟨h.1, h.2 gHappy "" rfl⟩

/-- C10: an empty-string pattern is falsy in `if file_pattern:`, so it
builds the identical diff command (no `--`, no pattern) and the collector
returns the same result as with no pattern at all. -/
theorem C10_empty_pattern_no_scope (g : Git) (base_ref head_ref : String) :
    diffCmd base_ref head_ref (some "") = diffCmd base_ref head_ref none
    ∧ get_changed_files g base_ref head_ref (some "")
        = get_changed_files g base_ref head_ref none := by
  have h1 : diffCmd base_ref head_ref (some "") = diffCmd base_ref head_ref none := by
    simp [diffCmd, patTruthy]
  exact ⟨h1, by simp [get_changed_files, h1]⟩
/-- C3: when `--output` is supplied and collection succeeds with a non-empty
list, the file receives each path on its own line with a trailing newline
and nothing else (overwriting, per `write_text`), the write event precedes
the confirmation line, and splitting the written content back into lines
recovers exactly the printed paths in order. -/
theorem C3_round_trip (g : Git) (fs : Fs) (base_ref head_ref : String)
    (pattern : Option String) (o out : String) (files : List String)
    (hrepo : is_git_repo g = true)
    (hb : validate_git_ref g base_ref = true)
    (hh : validate_git_ref g head_ref = true)
    (hrun : g.run (diffCmd base_ref head_ref pattern) = .ok out)
    (hfiles : parseDiffOutput out = files)
    (hne : files ≠ [])
    (hmk : fs.mkdirParents o = .ok ())
    (hw : fs.writeText o (outputContent files) = .ok ()) :
    main g fs base_ref head_ref pattern (some o)
      = (preCalls base_ref head_ref pattern
          ++ (Event.out (countMsg files.length)
                :: files.map fun f => Event.out (itemLine f))
          ++ [Event.writeFile o (outputContent files), Event.out (writtenMsg o)],
         .exited 0)
    ∧ outputContent files = String.intercalate "\n" files ++ "\n"
    ∧ pySplitlines (outputContent files) = files := by
  have hie : files.isEmpty = false := by
    cases files with
    | nil => exact absurd rfl hne
    | cons a l => rfl
  refine ⟨?_, rfl, ?_⟩
  · simp [main, hrepo, hb, hh, get_changed_files, hrun, hfiles, hie, hmk, hw, listing]
  · refine pySplitlines_outputContent files hne fun f hf => ?_
    rw [← hfiles] at hf
    exact (mem_parseDiffOutput out f hf).2.2

/-- C3 witness: the two-file diff written to `out.txt` round-trips: the
written content splits back into the two printed paths. -/
theorem C3_round_trip_witness :
    main gHappy fsOk "v1" "v2" none (some "out.txt")
      = (preCalls "v1" "v2" none
          ++ (Event.out (countMsg 2)
                :: ["a.py", "b.txt"].map fun f => Event.out (itemLine f))
          ++ [Event.writeFile "out.txt" (outputContent ["a.py", "b.txt"]),
              Event.out (writtenMsg "out.txt")],
         .exited 0)
    ∧ outputContent ["a.py", "b.txt"] = String.intercalate "\n" ["a.py", "b.txt"] ++ "\n"
    ∧ pySplitlines (outputContent ["a.py", "b.txt"]) = ["a.py", "b.txt"] := by
  have h := C3_round_trip gHappy fsOk "v1" "v2" none "out.txt"
    "a.py\nb.txt\n" ["a.py", "b.txt"] rfl rfl rfl rfl (by decide) (by decide) rfl rfl
  simpa using h

/-- C1 counterexample: a run whose collection raises (the diff subprocess
fails after both references validated) terminates through `click.Abort`,
whose process exit status is 1 — the same status as a validation failure,
not a distinct one as the claim asserts. -/
theorem C1_counterexample :
    (main gDiffFail fsOk "v1" "v2" none none).2 = ProgExit.aborted
    ∧ finalExitCode (main gDiffFail fsOk "v1" "v2" none none).2 = 1
    ∧ finalExitCode ProgExit.aborted = finalExitCode (ProgExit.exited 1) := by
  refine ⟨?_, rfl, rfl⟩
  rfl

/-- C1 amended: every run in which an exception is raised during collection
or file writing (after both references validated) terminates via the abort
path with the non-zero exit status 1 — which is the same as, not distinct
from, the validation-failure status: after validation a run either exits 0
or aborts with final status 1. -/
theorem C1_abort_status (g : Git) (fs : Fs) (base_ref head_ref : String)
    (pattern output : Option String)
    (hrepo : is_git_repo g = true)
    (hb : validate_git_ref g base_ref = true)
    (hh : validate_git_ref g head_ref = true) :
    (main g fs base_ref head_ref pattern output).2 = .exited 0
    ∨ ((main g fs base_ref head_ref pattern output).2 = .aborted
        ∧ finalExitCode (main g fs base_ref head_ref pattern output).2 = 1) := by
  cases hrun : g.run (diffCmd base_ref head_ref pattern) with
  | error e =>
    right
    constructor <;> simp [main, hrepo, hb, hh, get_changed_files, hrun, finalExitCode]
  | ok out =>
    cases hie : (parseDiffOutput out).isEmpty with
    | true =>
      left
      simp [main, hrepo, hb, hh, get_changed_files, hrun, hie]
    | false =>
      cases output with
      | none =>
        left
        simp [main, hrepo, hb, hh, get_changed_files, hrun, hie]
      | some o =>
        cases hmk : fs.mkdirParents o with
        | error e =>
          right
          constructor <;>
            simp [main, hrepo, hb, hh, get_changed_files, hrun, hie, hmk, finalExitCode]
        | ok u =>
          cases hw : fs.writeText o (outputContent (parseDiffOutput out)) with
          | error e =>
            right
            constructor <;>
              simp [main, hrepo, hb, hh, get_changed_files, hrun, hie, hmk, hw, finalExitCode]
          | ok v =>
            left
            simp [main, hrepo, hb, hh, get_changed_files, hrun, hie, hmk, hw]

/-- C1 amended witness: a failed directory creation aborts with final exit
status 1. -/
theorem C1_abort_status_witness :
    (main gHappy fsBadDir "v1" "v2" none (some "out.txt")).2 = .exited 0
    ∨ ((main gHappy fsBadDir "v1" "v2" none (some "out.txt")).2 = .aborted
        ∧ finalExitCode (main gHappy fsBadDir "v1" "v2" none (some "out.txt")).2 = 1) :=
  C1_abort_status gHappy fsBadDir "v1" "v2" none (some "out.txt") rfl rfl rfl
/-- Every event a run can emit is a subprocess call, the file write, one of
the four `Error:` stderr lines, or one of the five stdout lines (the hint,
the no-changes line, the count line, an indented path, the confirmation). -/
theorem trace_cases (g : Git) (fs : Fs) (base_ref head_ref : String)
    (pattern output : Option String) (e : Event)
    (he : e ∈ (main g fs base_ref head_ref pattern output).1) :
    (∃ cmd, e = Event.call cmd)
    ∨ (∃ pa c, e = Event.writeFile pa c)
    ∨ e = Event.err "Error: Not a git repository"
    ∨ (∃ r, e = Event.err (invalidRefMsg r))
    ∨ (∃ t, e = Event.err (cmdFailMsg t))
    ∨ (∃ t, e = Event.err (genericErrMsg t))
    ∨ e = Event.out noteMsg
    ∨ e = Event.out "No changes found between the specified references."
    ∨ (∃ n, e = Event.out (countMsg n))
    ∨ (∃ f, e = Event.out (itemLine f))
    ∨ (∃ pa, e = Event.out (writtenMsg pa)) := by
  unfold main at he
  repeat' split at he
  all_goals
    simp only [preCalls, listing, List.mem_cons, List.mem_append, List.mem_map,
      List.mem_singleton, List.cons_append, List.nil_append, List.not_mem_nil,
      or_false, false_or] at he
  all_goals aesop
/-- C7 counterexample: on an invalid base reference the remediation hint is
emitted on standard output, not on the error stream — the run's trace holds
`Event.out noteMsg` and no `Event.err noteMsg`. -/
theorem C7_counterexample :
    Event.out noteMsg ∈ (main gNoRefs fsOk "badbase" "v2" none none).1
    ∧ Event.err noteMsg ∉ (main gNoRefs fsOk "badbase" "v2" none none).1 := by
  constructor
  · decide
  · decide

/-- C7 amended: every message on the error stream carries the `Error:`
prefix and no `Error:`-prefixed message ever goes to standard output, but
the remediation hint for an invalid reference is printed to standard
output (standard output carries the status lines, the enumerated paths,
and that hint). -/
theorem C7_streams (g : Git) (fs : Fs) (base_ref head_ref : String)
    (pattern output : Option String) :
    (∀ s, Event.err s ∈ (main g fs base_ref head_ref pattern output).1 →
        startsWithError s = true)
    ∧ (∀ s, Event.out s ∈ (main g fs base_ref head_ref pattern output).1 →
        startsWithError s = false)
    ∧ (is_git_repo g = true → validate_git_ref g base_ref = false →
        Event.out noteMsg ∈ (main g fs base_ref head_ref pattern output).1) := by
  refine ⟨fun s hs => ?_, fun s hs => ?_, fun hrepo hb => ?_⟩
  · rcases trace_cases g fs base_ref head_ref pattern output _ hs with
      ⟨c, hc⟩ | ⟨pa, c, hc⟩ | hc | ⟨r, hc⟩ | ⟨t, hc⟩ | ⟨t, hc⟩ | hc | hc
      | ⟨n, hc⟩ | ⟨f, hc⟩ | ⟨pa, hc⟩
    · simp at hc
    · simp at hc
    · simp at hc; subst hc; exact swe_notRepo
    · simp at hc; subst hc; exact swe_invalidRef r
    · simp at hc; subst hc; exact swe_cmdFail t
    · simp at hc; subst hc; exact swe_generic t
    · simp at hc
    · simp at hc
    · simp at hc
    · simp at hc
    · simp at hc
  · rcases trace_cases g fs base_ref head_ref pattern output _ hs with
      ⟨c, hc⟩ | ⟨pa, c, hc⟩ | hc | ⟨r, hc⟩ | ⟨t, hc⟩ | ⟨t, hc⟩ | hc | hc
      | ⟨n, hc⟩ | ⟨f, hc⟩ | ⟨pa, hc⟩
    · simp at hc
    · simp at hc
    · simp at hc
    · simp at hc
    · simp at hc
    · simp at hc
    · simp at hc; subst hc; exact swe_note
    · simp at hc; subst hc; exact swe_noChanges
    · simp at hc; subst hc; exact swe_count n
    · simp at hc; subst hc; exact swe_item f
    · simp at hc; subst hc; exact swe_written pa
  · simp [main, hrepo, hb]

/-- C7 amended witness: in the invalid-base run the error line is
`Error:`-prefixed on stderr and the stdout hint is present. -/
theorem C7_streams_witness :
    Event.out noteMsg ∈ (main gNoRefs fsOk "badbase" "v2" none none).1 :=
  (C7_streams gNoRefs fsOk "badbase" "v2" none none).2.2 rfl rfl

end GitDiffFiles
